import Mathlib

/-!
Verification of the history and content-addressed asset store of an
AI image generator web application.  The definitions below are shallow
embeddings of the TypeScript source (`src/lib/r2.ts` and
`src/app/api/history/image/route.ts`); the theorems check the
specification's claims against them.  Remote blob-store effects are made
explicit: stores are association lists, fallible network calls are
oracles (`Bool`-valued parameters) matching the source's try/catch
structure, and the record of attempted operations is returned alongside
results.
-/

namespace ImageStore

/-! ### Bytes, UTF-8 and SHA-256
Node's `createHash('sha256').update(x)` hashes the UTF-8 bytes of a
string, or the raw bytes of a buffer.  Bytes and 32-bit words are `Nat`
with explicit reduction `% 2 ^ 32` where overflow matters. -/

/-- UTF-8 encoding of one character (code point to bytes). -/
def utf8EncodeChar (c : Char) : List Nat :=
  let n := c.toNat
  if n < 128 then [n]
  else if n < 2048 then [192 + n / 64, 128 + n % 64]
  else if n < 65536 then [224 + n / 4096, 128 + n / 64 % 64, 128 + n % 64]
  else [240 + n / 262144, 128 + n / 4096 % 64, 128 + n / 64 % 64, 128 + n % 64]

/-- UTF-8 encoding of a string, as Node's `hash.update(string)` performs. -/
def utf8Encode (s : String) : List Nat :=
  (s.data.map utf8EncodeChar).flatten

/-- Right rotation of a 32-bit word. -/
def rotr32 (n a : Nat) : Nat := ((a >>> n) ||| (a <<< (32 - n))) % 2 ^ 32

/-- Bitwise complement of a 32-bit word. -/
def not32 (a : Nat) : Nat := a ^^^ (2 ^ 32 - 1)

def shaCh (x y z : Nat) : Nat := (x &&& y) ^^^ (not32 x &&& z)

def shaMaj (x y z : Nat) : Nat := (x &&& y) ^^^ (x &&& z) ^^^ (y &&& z)

def bigSigma0 (x : Nat) : Nat := (rotr32 2 x) ^^^ (rotr32 13 x) ^^^ (rotr32 22 x)

def bigSigma1 (x : Nat) : Nat := (rotr32 6 x) ^^^ (rotr32 11 x) ^^^ (rotr32 25 x)

def smallSigma0 (x : Nat) : Nat := (rotr32 7 x) ^^^ (rotr32 18 x) ^^^ (x >>> 3)

def smallSigma1 (x : Nat) : Nat := (rotr32 17 x) ^^^ (rotr32 19 x) ^^^ (x >>> 10)

/-- The 64 SHA-256 round constants (FIPS 180-4), written in decimal. -/
def shaK : List Nat :=
  [1116352408, 1899447441, 3049323471, 3921009573, 961987163, 1508970993,
   2453635748, 2870763221, 3624381080, 310598401, 607225278, 1426881987,
   1925078388, 2162078206, 2614888103, 3248222580, 3835390401, 4022224774,
   264347078, 604807628, 770255983, 1249150122, 1555081692, 1996064986,
   2554220882, 2821834349, 2952996808, 3210313671, 3336571891, 3584528711,
   113926993, 338241895, 666307205, 773529912, 1294757372, 1396182291,
   1695183700, 1986661051, 2177026350, 2456956037, 2730485921, 2820302411,
   3259730800, 3345764771, 3516065817, 3600352804, 4094571909, 275423344,
   430227734, 506948616, 659060556, 883997877, 958139571, 1322822218,
   1537002063, 1747873779, 1955562222, 2024104815, 2227730452, 2361852424,
   2428436474, 2756734187, 3204031479, 3329325298]

/-- Working state of the SHA-256 compression function. -/
structure Sha256State where
  a : Nat
  b : Nat
  c : Nat
  d : Nat
  e : Nat
  f : Nat
  g : Nat
  h : Nat

def shaStep (st : Sha256State) (wk : Nat × Nat) : Sha256State :=
  let t1 := (st.h + bigSigma1 st.e + shaCh st.e st.f st.g + wk.2 + wk.1) % 2 ^ 32
  let t2 := (bigSigma0 st.a + shaMaj st.a st.b st.c) % 2 ^ 32
  ⟨(t1 + t2) % 2 ^ 32, st.a, st.b, st.c, (st.d + t1) % 2 ^ 32, st.e, st.f, st.g⟩

/-- Big-endian word from a list of bytes. -/
def bytesToWordBE (l : List Nat) : Nat := l.foldl (fun acc b => acc * 256 + b) 0

/-- The 16 initial words of a 64-byte block. -/
def blockWords (block : List Nat) : List Nat :=
  (List.range 16).map (fun i => bytesToWordBE ((block.drop (4 * i)).take 4))

/-- Message-schedule extension, appending `n` further words. -/
def extendWords : Nat → List Nat → List Nat
  | 0, w => w
  | n + 1, w =>
      let t := (smallSigma1 (w.getD (w.length - 2) 0) + w.getD (w.length - 7) 0 +
                smallSigma0 (w.getD (w.length - 15) 0) + w.getD (w.length - 16) 0) % 2 ^ 32
      extendWords n (w ++ [t])

def shaCompress (st : Sha256State) (block : List Nat) : Sha256State :=
  let ws := extendWords 48 (blockWords block)
  let r := (ws.zip shaK).foldl shaStep st
  ⟨(st.a + r.a) % 2 ^ 32, (st.b + r.b) % 2 ^ 32, (st.c + r.c) % 2 ^ 32, (st.d + r.d) % 2 ^ 32,
   (st.e + r.e) % 2 ^ 32, (st.f + r.f) % 2 ^ 32, (st.g + r.g) % 2 ^ 32, (st.h + r.h) % 2 ^ 32⟩

/-- SHA-256 padding: `0x80`, zeros, then the 64-bit big-endian bit length. -/
def padMessage (msg : List Nat) : List Nat :=
  let bitLen := msg.length * 8
  let padZeros := (64 - (msg.length + 9) % 64) % 64
  msg ++ [128] ++ List.replicate padZeros 0 ++
    [bitLen / 2 ^ 56 % 256, bitLen / 2 ^ 48 % 256, bitLen / 2 ^ 40 % 256, bitLen / 2 ^ 32 % 256,
     bitLen / 2 ^ 24 % 256, bitLen / 2 ^ 16 % 256, bitLen / 2 ^ 8 % 256, bitLen % 256]

/-- Split a byte list into 64-byte blocks. -/
def toBlocks (l : List Nat) : List (List Nat) :=
  if hl : l = [] then [] else l.take 64 :: toBlocks (l.drop 64)
termination_by l.length
decreasing_by
  have hz : l.length ≠ 0 := fun hz => hl (List.eq_nil_of_length_eq_zero hz)
  simp only [List.length_drop]
  omega

def sha256Init : Sha256State :=
  ⟨1779033703, 3144134277, 1013904242, 2773480762,
   1359893119, 2600822924, 528734635, 1541459225⟩

def sha256Final (msg : List Nat) : Sha256State :=
  (toBlocks (padMessage msg)).foldl shaCompress sha256Init

def hexAlphabet : List Char := "0123456789abcdef".data

/-- Lowercase hex digit of `n % 16`. -/
def hexDigit (n : Nat) : Char := hexAlphabet.getD (n % 16) '0'

/-- Eight lowercase hex characters of a 32-bit word, most significant first. -/
def wordHexChars (w : Nat) : List Char :=
  [hexDigit (w / 16 ^ 7), hexDigit (w / 16 ^ 6), hexDigit (w / 16 ^ 5), hexDigit (w / 16 ^ 4),
   hexDigit (w / 16 ^ 3), hexDigit (w / 16 ^ 2), hexDigit (w / 16), hexDigit w]

/-- The 64 lowercase hex characters of the SHA-256 digest of a byte list,
as Node's `digest('hex')` produces. -/
def sha256HexChars (msg : List Nat) : List Char :=
  let st := sha256Final msg
  wordHexChars st.a ++ wordHexChars st.b ++ wordHexChars st.c ++ wordHexChars st.d ++
  wordHexChars st.e ++ wordHexChars st.f ++ wordHexChars st.g ++ wordHexChars st.h

def sha256Hex (msg : List Nat) : String := String.mk (sha256HexChars msg)

/-- `getUserIdFromApiKey` (src/lib/r2.ts:49): the empty key is anonymous,
otherwise the first 16 hex characters of the SHA-256 digest of the key.
JavaScript's `hash.substring(0, 16)` is modeled as `List.take 16` on the
digest's characters. -/
def getUserIdFromApiKey (apiKey : String) : String :=
  if apiKey = "" then "anonymous"
  else String.mk ((sha256HexChars (utf8Encode apiKey)).take 16)

/-! ### Lemmas about the hex digest -/

theorem hexDigit_mem (n : Nat) : hexDigit n ∈ hexAlphabet := by
  have h : n % 16 < 16 := Nat.mod_lt _ (by decide)
  unfold hexDigit
  revert h
  generalize n % 16 = m
  intro h
  interval_cases m <;> decide

theorem wordHexChars_mem (w : Nat) : ∀ c ∈ wordHexChars w, c ∈ hexAlphabet := by
  intro c hc
  simp only [wordHexChars, List.mem_cons, List.not_mem_nil, or_false] at hc
  rcases hc with h | h | h | h | h | h | h | h <;> (subst h; exact hexDigit_mem _)

theorem sha256HexChars_mem (msg : List Nat) : ∀ c ∈ sha256HexChars msg, c ∈ hexAlphabet := by
  intro c hc
  simp only [sha256HexChars, List.mem_append] at hc
  rcases hc with ((((((h | h) | h) | h) | h) | h) | h) | h <;> exact wordHexChars_mem _ _ h

theorem sha256HexChars_length (msg : List Nat) : (sha256HexChars msg).length = 64 := by
  simp [sha256HexChars, wordHexChars]

/-- Claim C6: `getUserIdFromApiKey` returns the fixed anonymous sentinel
`"anonymous"` for the empty credential string; for every non-empty
credential it returns a 16-character string of lowercase hex characters,
namely the first 16 characters of the SHA-256 hex digest of the
credential's UTF-8 bytes.  (Determinism is immediate: the embedding is a
pure function of the credential.) -/
theorem deriveUserId_spec :
    getUserIdFromApiKey "" = "anonymous" ∧
    ∀ s : String, s ≠ "" →
      (getUserIdFromApiKey s).length = 16 ∧
      (∀ c ∈ (getUserIdFromApiKey s).data, c ∈ hexAlphabet) ∧
      (getUserIdFromApiKey s).data = (sha256HexChars (utf8Encode s)).take 16 := by
  refine ⟨rfl, fun s hs => ?_⟩
  unfold getUserIdFromApiKey
  rw [if_neg hs]
  refine ⟨?_, ?_, rfl⟩
  · show ((sha256HexChars (utf8Encode s)).take 16).length = 16
    rw [List.length_take, sha256HexChars_length]
    decide
  · intro c hc
    exact sha256HexChars_mem _ c (List.take_subset _ _ hc)

/-- Witness for claim C6 at the concrete credential `"k"`. -/
theorem deriveUserId_spec_witness :
    ("k" : String) ≠ "" ∧
    ((getUserIdFromApiKey "k").length = 16 ∧
      (∀ c ∈ (getUserIdFromApiKey "k").data, c ∈ hexAlphabet) ∧
      (getUserIdFromApiKey "k").data = (sha256HexChars (utf8Encode "k")).take 16) :=
  ⟨by decide, deriveUserId_spec.2 "k" (by decide)⟩

/-! ### Storage key layout (src/lib/r2.ts) -/

def getHistoryFileKey (userId : String) : String :=
  "history/" ++ userId ++ "/history.json"

def getInputImageKey (userId imageHash ext : String) : String :=
  "inputs/" ++ userId ++ "/" ++ imageHash ++ "." ++ ext

/-- Does the key end in `.jpg`, compared case-insensitively?  This is
exactly when `/\.jpg$/i` matches. -/
def endsInDotJpgCI (l : List Char) : Bool :=
  (l.drop (l.length - 4)).map Char.toLower == ['.', 'j', 'p', 'g']

/-- `getThumbnailKeyFromImageKey` (src/lib/r2.ts:83):
`imageKey.replace(/\.jpg$/i, '_thumb.jpg')`.  The anchored pattern
matches iff the key's last four characters lowercase to `.jpg`; on a
match they are replaced by the literal `_thumb.jpg`, otherwise the key
is returned unchanged. -/
def getThumbnailKeyFromImageKey (imageKey : String) : String :=
  let l := imageKey.data
  if endsInDotJpgCI l then String.mk (l.take (l.length - 4) ++ "_thumb.jpg".data)
  else imageKey

/-! ### Data-URI parsing and base64 (src/lib/r2.ts:87) -/

/-- Value of one base64 alphabet character; `none` for characters outside
the alphabet (Node's forgiving decoder skips those, `=` included). -/
def base64CharVal (c : Char) : Option Nat :=
  if 'A' ≤ c ∧ c ≤ 'Z' then some (c.toNat - 65)
  else if 'a' ≤ c ∧ c ≤ 'z' then some (c.toNat - 71)
  else if '0' ≤ c ∧ c ≤ '9' then some (c.toNat + 4)
  else if c = '+' then some 62
  else if c = '/' then some 63
  else none

def sextetsToBytes : List Nat → List Nat
  | a :: b :: c :: d :: rest =>
      (a * 4 + b / 16) :: ((b % 16) * 16 + c / 4) :: ((c % 4) * 64 + d) :: sextetsToBytes rest
  | [a, b] => [a * 4 + b / 16]
  | [a, b, c] => [a * 4 + b / 16, (b % 16) * 16 + c / 4]
  | _ => []

/-- Node's `Buffer.from(s, 'base64')`. -/
def base64Decode (l : List Char) : List Nat :=
  sextetsToBytes (l.filterMap base64CharVal)

structure ParsedImageData where
  buffer : List Nat
  mimeType : String
deriving DecidableEq

/-- Match of `/^data:([^;]+);base64,/i` at the start of the string:
returns the captured MIME type (original case) and the length of the
matched region. -/
def matchDataUriHead (l : List Char) : Option (String × Nat) :=
  if (l.take 5).map Char.toLower = "data:".data then
    let rest := l.drop 5
    let mime := rest.takeWhile (fun c => c ≠ ';')
    if mime ≠ [] ∧ ((rest.drop mime.length).take 8).map Char.toLower = ";base64,".data then
      some (String.mk mime, 5 + mime.length + 8)
    else none
  else none

/-- Match of the case-sensitive `/^data:[^;]+;base64,/` used by the
`replace` that strips the data-URI head; returns the matched length. -/
def matchDataUriHeadCS (l : List Char) : Option Nat :=
  if l.take 5 = "data:".data then
    let rest := l.drop 5
    let mime := rest.takeWhile (fun c => c ≠ ';')
    if mime ≠ [] ∧ (rest.drop mime.length).take 8 = ";base64,".data then
      some (5 + mime.length + 8)
    else none
  else none

/-- `parseImageData` (src/lib/r2.ts:87): reads the MIME type from the
data-URI head (case-insensitive match, falling back to
`fallbackMimeType`), strips the head with a case-sensitive `replace`,
and base64-decodes the remainder. -/
def parseImageData (imageData : String) (fallbackMimeType : String) : ParsedImageData :=
  let l := imageData.data
  let mimeType := match matchDataUriHead l with
    | some (m, _) => m
    | none => fallbackMimeType
  let base64Data := match matchDataUriHeadCS l with
    | some n => l.drop n
    | none => l
  ⟨base64Decode base64Data, mimeType⟩

/-- `getExtensionFromMimeType` (src/lib/r2.ts:98). -/
def getExtensionFromMimeType (mimeType : String) : String :=
  let m := String.mk (mimeType.data.map Char.toLower)
  if m = "image/png" then "png"
  else if m = "image/webp" then "webp"
  else if m = "image/gif" then "gif"
  else "jpg"

/-! ### Content-addressed input store (src/lib/r2.ts:113, 335) -/

/-- A blob store modeled by the list of keys currently holding an
object. -/
abbrev KeySet := List String

/-- `doesObjectExist` (src/lib/r2.ts:113): a Head probe; `headOk k`
models whether the probe completes without an infrastructure error.  Any
error — genuine `NotFound` included — yields `false`, so a failed probe
is treated as "does not exist" and the caller falls through to an
upload. -/
def doesObjectExist (headOk : String → Bool) (store : KeySet) (key : String) : Bool :=
  if headOk key then store.contains key else false

structure DedupResult where
  imageKey : String
  imageHash : String
  reused : Bool
  uploadPerformed : Bool
deriving DecidableEq

/-- `uploadInputImageWithDedup` (src/lib/r2.ts:335): decode, hash the
raw bytes, build the content-addressed key, probe existence, and upload
only when the probe reports the key absent.  Returns the result record —
the Put call is recorded in `uploadPerformed` — and the store after the
call. -/
def uploadInputImageWithDedup (headOk : String → Bool) (store : KeySet)
    (imageData userId fallbackMimeType : String) : DedupResult × KeySet :=
  let p := parseImageData imageData fallbackMimeType
  let imageHash := String.mk (sha256HexChars p.buffer)
  let ext := getExtensionFromMimeType p.mimeType
  let imageKey := getInputImageKey userId imageHash ext
  let ex := doesObjectExist headOk store imageKey
  (⟨imageKey, imageHash, ex, !ex⟩, if ex then store else imageKey :: store)

/-- Claim C3: with the computed key absent from the store and a working
existence probe, two consecutive `uploadInputImageWithDedup` calls with
the same payload for the same user return the same key, with
`reused = false` (and an upload) on the first call and `reused = true`
(no upload) on the second. -/
theorem storeInputImage_same_payload_twice (headOk : String → Bool) (store : KeySet)
    (imageData userId fallbackMimeType : String)
    (hhead : ∀ k, headOk k = true)
    (habs : (uploadInputImageWithDedup headOk store imageData userId fallbackMimeType).1.imageKey ∉
      store) :
    (uploadInputImageWithDedup headOk store imageData userId fallbackMimeType).1.reused = false ∧
    (uploadInputImageWithDedup headOk store imageData userId
      fallbackMimeType).1.uploadPerformed = true ∧
    (uploadInputImageWithDedup headOk
      (uploadInputImageWithDedup headOk store imageData userId fallbackMimeType).2
      imageData userId fallbackMimeType).1.reused = true ∧
    (uploadInputImageWithDedup headOk
      (uploadInputImageWithDedup headOk store imageData userId fallbackMimeType).2
      imageData userId fallbackMimeType).1.uploadPerformed = false ∧
    (uploadInputImageWithDedup headOk
      (uploadInputImageWithDedup headOk store imageData userId fallbackMimeType).2
      imageData userId fallbackMimeType).1.imageKey =
      (uploadInputImageWithDedup headOk store imageData userId fallbackMimeType).1.imageKey := by
  simp only [uploadInputImageWithDedup, doesObjectExist, hhead, if_true] at habs ⊢
  simp [habs]

/-- Witness for claim C3: a concrete payload uploaded twice by user
`"u"` into an initially empty store. -/
theorem storeInputImage_same_payload_twice_witness :
    (∀ k, (fun _ : String => true) k = true) ∧
    ((uploadInputImageWithDedup (fun _ => true) [] "zGJh" "u" "image/png").1.imageKey ∉
      ([] : KeySet)) ∧
    ((uploadInputImageWithDedup (fun _ => true) [] "zGJh" "u" "image/png").1.reused = false ∧
     (uploadInputImageWithDedup (fun _ => true) [] "zGJh" "u" "image/png").1.uploadPerformed =
       true ∧
     (uploadInputImageWithDedup (fun _ => true)
       (uploadInputImageWithDedup (fun _ => true) [] "zGJh" "u" "image/png").2
       "zGJh" "u" "image/png").1.reused = true ∧
     (uploadInputImageWithDedup (fun _ => true)
       (uploadInputImageWithDedup (fun _ => true) [] "zGJh" "u" "image/png").2
       "zGJh" "u" "image/png").1.uploadPerformed = false ∧
     (uploadInputImageWithDedup (fun _ => true)
       (uploadInputImageWithDedup (fun _ => true) [] "zGJh" "u" "image/png").2
       "zGJh" "u" "image/png").1.imageKey =
       (uploadInputImageWithDedup (fun _ => true) [] "zGJh" "u" "image/png").1.imageKey) :=
  ⟨fun _ => rfl, by simp,
    storeInputImage_same_payload_twice (fun _ => true) [] "zGJh" "u" "image/png"
      (fun _ => rfl) (by simp)⟩

/-- The per-user key layout is injective in the user for a fixed hash and
extension. -/
theorem getInputImageKey_user_inj (u1 u2 hsh ext : String)
    (heq : getInputImageKey u1 hsh ext = getInputImageKey u2 hsh ext) : u1 = u2 := by
  unfold getInputImageKey at heq
  have hd := congrArg String.data heq
  simp only [String.data_append, List.append_assoc] at hd
  have h1 := List.append_cancel_left hd
  have h2 := List.append_cancel_right h1
  cases u1
  cases u2
  exact congrArg String.mk h2

/-- Claim C7: for the same payload, `uploadInputImageWithDedup` gives
two distinct users two distinct keys (the key embeds the user id), while
the key for a fixed user and payload does not depend on the store or the
probe at all — byte-identical uploads by the same user always resolve to
the same key. -/
theorem storeInputImage_namespacing (headOk1 headOk2 : String → Bool) (s1 s2 : KeySet)
    (imageData u1 u2 fallbackMimeType : String) (hne : u1 ≠ u2) :
    (uploadInputImageWithDedup headOk1 s1 imageData u1 fallbackMimeType).1.imageKey ≠
      (uploadInputImageWithDedup headOk2 s2 imageData u2 fallbackMimeType).1.imageKey ∧
    (uploadInputImageWithDedup headOk1 s1 imageData u1 fallbackMimeType).1.imageKey =
      (uploadInputImageWithDedup headOk2 s2 imageData u1 fallbackMimeType).1.imageKey := by
  exact ⟨fun heq => hne (getInputImageKey_user_inj _ _ _ _ heq), rfl⟩

/-- Witness for claim C7: users `"a"` and `"b"`, same concrete payload. -/
theorem storeInputImage_namespacing_witness :
    ("a" : String) ≠ "b" ∧
    ((uploadInputImageWithDedup (fun _ => true) [] "zGJh" "a" "image/png").1.imageKey ≠
      (uploadInputImageWithDedup (fun _ => false) ["x"] "zGJh" "b" "image/png").1.imageKey ∧
     (uploadInputImageWithDedup (fun _ => true) [] "zGJh" "a" "image/png").1.imageKey =
      (uploadInputImageWithDedup (fun _ => false) ["x"] "zGJh" "a" "image/png").1.imageKey) :=
  ⟨by decide,
    storeInputImage_namespacing (fun _ => true) (fun _ => false) [] ["x"] "zGJh" "a" "b"
      "image/png" (by decide)⟩

/-! ### History items and the JSON ledger document (src/lib/r2.ts:26, 241, 267) -/

inductive GenMode
  | text2img
  | img2img
  | outpaint
deriving DecidableEq

def GenMode.toStr : GenMode → String
  | .text2img => "text2img"
  | .img2img => "img2img"
  | .outpaint => "outpaint"

def GenMode.ofStr (s : String) : Option GenMode :=
  if s = "text2img" then some .text2img
  else if s = "img2img" then some .img2img
  else if s = "outpaint" then some .outpaint
  else none

/-- The `HistoryItem` interface (src/lib/r2.ts:26).  Optional fields are
`Option`; an absent (`undefined`) field is `none`. -/
structure HistoryItem where
  id : String
  timestamp : Nat
  prompt : String
  mode : GenMode
  model : String
  imageKey : String
  aspectRatio : Option String
  inputImageKey : Option String
  inputImageHash : Option String
  inputImageKeys : Option (List String)
  inputImageHashes : Option (List String)
deriving DecidableEq

/-- JSON documents, at the level `JSON.stringify`/`JSON.parse` transport
them. -/
inductive Json where
  | str : String → Json
  | num : Nat → Json
  | arr : List Json → Json
  | obj : List (String × Json) → Json

/-- First-match lookup in an association list (JSON object fields, and
the blob store keyed by string). -/
def lookupKey {α : Type} : List (String × α) → String → Option α
  | [], _ => none
  | (k, v) :: rest, name => if k = name then some v else lookupKey rest name

def asStr : Option Json → Option String
  | some (.str s) => some s
  | _ => none

def asNum : Option Json → Option Nat
  | some (.num n) => some n
  | _ => none

def decodeStrItems : List Json → Option (List String)
  | [] => some []
  | .str s :: rest => (decodeStrItems rest).map (s :: ·)
  | _ => none

def asStrList : Option Json → Option (List String)
  | some (.arr xs) => decodeStrItems xs
  | _ => none

/-- JSON form of a history item as `JSON.stringify` emits it: fields
holding `undefined` are omitted from the object. -/
def HistoryItem.toJson (it : HistoryItem) : Json :=
  .obj ([("id", Json.str it.id), ("timestamp", Json.num it.timestamp),
         ("prompt", Json.str it.prompt), ("mode", Json.str it.mode.toStr),
         ("model", Json.str it.model), ("imageKey", Json.str it.imageKey)]
    ++ (match it.aspectRatio with | some s => [("aspectRatio", Json.str s)] | none => [])
    ++ (match it.inputImageKey with | some s => [("inputImageKey", Json.str s)] | none => [])
    ++ (match it.inputImageHash with | some s => [("inputImageHash", Json.str s)] | none => [])
    ++ (match it.inputImageKeys with
        | some l => [("inputImageKeys", Json.arr (l.map Json.str))] | none => [])
    ++ (match it.inputImageHashes with
        | some l => [("inputImageHashes", Json.arr (l.map Json.str))] | none => []))

/-- Reading a history item back from a parsed JSON object, field by
field as the `HistoryItem` interface declares them; an absent optional
field reads as `undefined` (`none`). -/
def HistoryItem.fromJson : Json → Option HistoryItem
  | .obj fields => do
      let id ← asStr (lookupKey fields "id")
      let ts ← asNum (lookupKey fields "timestamp")
      let prompt ← asStr (lookupKey fields "prompt")
      let mode ← (asStr (lookupKey fields "mode")).bind GenMode.ofStr
      let model ← asStr (lookupKey fields "model")
      let imageKey ← asStr (lookupKey fields "imageKey")
      some ⟨id, ts, prompt, mode, model, imageKey,
        asStr (lookupKey fields "aspectRatio"),
        asStr (lookupKey fields "inputImageKey"),
        asStr (lookupKey fields "inputImageHash"),
        asStrList (lookupKey fields "inputImageKeys"),
        asStrList (lookupKey fields "inputImageHashes")⟩
  | _ => none

theorem GenMode.ofStr_toStr (m : GenMode) : GenMode.ofStr m.toStr = some m := by
  cases m <;> rfl

theorem decodeStrItems_map (l : List String) : decodeStrItems (l.map Json.str) = some l := by
  induction l with
  | nil => rfl
  | cons a t ih => simp [decodeStrItems, ih]

theorem HistoryItem.fromJson_toJson (it : HistoryItem) :
    HistoryItem.fromJson it.toJson = some it := by
  obtain ⟨id, ts, prompt, mode, model, imageKey, ar, iik, iih, iiks, iihs⟩ := it
  cases ar <;> cases iik <;> cases iih <;> cases iiks <;> cases iihs <;>
    simp [HistoryItem.toJson, HistoryItem.fromJson, lookupKey, asStr, asNum, asStrList,
      decodeStrItems_map, GenMode.ofStr_toStr]

/-- The per-user ledger documents, keyed by storage path. -/
abbrev HistoryStore := List (String × Json)

def encodeHistory (items : List HistoryItem) : Json := .arr (items.map HistoryItem.toJson)

def decodeItems : List Json → Option (List HistoryItem)
  | [] => some []
  | j :: rest =>
      match HistoryItem.fromJson j, decodeItems rest with
      | some it, some l => some (it :: l)
      | _, _ => none

def decodeHistory : Json → Option (List HistoryItem)
  | .arr xs => decodeItems xs
  | _ => none

/-- `loadHistory` (src/lib/r2.ts:241): read and parse the user's
document; a missing document and every read error yield `[]`. -/
def loadHistory (userId : String) (store : HistoryStore) : List HistoryItem :=
  match lookupKey store (getHistoryFileKey userId) with
  | none => []
  | some j => (decodeHistory j).getD []

/-- `saveHistory` (src/lib/r2.ts:267): serialize and overwrite the
user's document wholesale.  `saveOk` models whether the Put call
succeeds; a failure is caught and reported as `false`, leaving the
document unchanged. -/
def saveHistory (saveOk : Bool) (userId : String) (history : List HistoryItem)
    (store : HistoryStore) : Bool × HistoryStore :=
  if saveOk then (true, (getHistoryFileKey userId, encodeHistory history) :: store)
  else (false, store)

theorem decodeItems_map (l : List HistoryItem) :
    decodeItems (l.map HistoryItem.toJson) = some l := by
  induction l with
  | nil => rfl
  | cons a t ih => simp [decodeItems, HistoryItem.fromJson_toJson, ih]

/-- Claim C8: a successful `saveHistory` followed by `loadHistory` for
the same user returns exactly the saved sequence — the same items in the
same order (serialization to the JSON document and parsing back is a
round-trip). -/
theorem save_load_roundtrip (saveOk : Bool) (userId : String) (items : List HistoryItem)
    (store : HistoryStore) (h : saveOk = true) :
    loadHistory userId (saveHistory saveOk userId items store).2 = items := by
  subst h
  simp [saveHistory, loadHistory, lookupKey, decodeHistory, encodeHistory, decodeItems_map]

/-- A sample history item used by concrete witnesses. -/
def sampleItem : HistoryItem :=
  ⟨"i1", 5, "a prompt", .img2img, "gemini", "images/u/i1.jpg", some "1:1",
    some "inputs/u/h.jpg", some "h", some ["inputs/u/h.jpg"], some ["h"]⟩

/-- Witness for claim C8 at a concrete user, item and store. -/
theorem save_load_roundtrip_witness :
    true = true ∧
    loadHistory "u" (saveHistory true "u" [sampleItem] []).2 = [sampleItem] :=
  ⟨rfl, save_load_roundtrip true "u" [sampleItem] [] rfl⟩

/-! ### Adding history items (src/lib/r2.ts:286) -/

/-- `addHistoryItem` (src/lib/r2.ts:286): load the current sequence,
prepend the new item (`unshift`), truncate to the first 100 elements
(`slice(0, 100)`), save. -/
def addHistoryItem (saveOk : Bool) (userId : String) (item : HistoryItem)
    (store : HistoryStore) : Bool × HistoryStore :=
  saveHistory saveOk userId ((item :: loadHistory userId store).take 100) store

/-- A sequence of successful `addHistoryItem` calls, first list element
added first. -/
def addItemsSequentially (userId : String) (items : List HistoryItem)
    (store : HistoryStore) : HistoryStore :=
  items.foldl (fun st it => (addHistoryItem true userId it st).2) store

theorem loadHistory_addHistoryItem (userId : String) (item : HistoryItem)
    (store : HistoryStore) :
    loadHistory userId (addHistoryItem true userId item store).2 =
      (item :: loadHistory userId store).take 100 :=
  save_load_roundtrip true userId _ store rfl

theorem take_append_take (xs ys : List HistoryItem) :
    (xs ++ ys.take 100).take 100 = (xs ++ ys).take 100 := by
  rw [List.take_append_eq_append_take, List.take_append_eq_append_take, List.take_take]
  have h : min (100 - xs.length) 100 = 100 - xs.length := by omega
  rw [h]

theorem foldl_prepend_take (items : List HistoryItem) :
    ∀ acc : List HistoryItem, acc.length ≤ 100 →
      items.foldl (fun l it => (it :: l).take 100) acc = (items.reverse ++ acc).take 100 := by
  induction items with
  | nil =>
      intro acc h
      simp [List.take_of_length_le h]
  | cons a t ih =>
      intro acc h
      rw [List.foldl_cons, ih ((a :: acc).take 100) (by simp [List.length_take]),
        take_append_take, List.reverse_cons, List.append_assoc]
      rfl

theorem loadHistory_addItemsSequentially (userId : String) (items : List HistoryItem) :
    ∀ store : HistoryStore,
      loadHistory userId (addItemsSequentially userId items store) =
        items.foldl (fun l it => (it :: l).take 100) (loadHistory userId store) := by
  induction items with
  | nil => intro store; rfl
  | cons a t ih =>
      intro store
      show loadHistory userId (addItemsSequentially userId t
        (addHistoryItem true userId a store).2) = _
      rw [ih, List.foldl_cons, loadHistory_addHistoryItem]

/-- Claim C2: `addHistoryItem` places the new item at index 0 of the
loaded sequence and stores at most the first 100 elements; starting from
an empty store, after adding 101 items in order (the first of which does
not recur later in the batch) the first-added item is absent from the
stored list and the stored list has length exactly 100. -/
theorem addItem_prepend_cap (userId : String) (item : HistoryItem) (store : HistoryStore)
    (first : HistoryItem) (rest : List HistoryItem)
    (hlen : rest.length = 100) (hnot : first ∉ rest) :
    loadHistory userId (addHistoryItem true userId item store).2 =
      (item :: loadHistory userId store).take 100 ∧
    (loadHistory userId (addItemsSequentially userId (first :: rest) [])).length = 100 ∧
    first ∉ loadHistory userId (addItemsSequentially userId (first :: rest) []) := by
  have hload : loadHistory userId (addItemsSequentially userId (first :: rest) []) =
      rest.reverse := by
    rw [loadHistory_addItemsSequentially]
    have h0 : loadHistory userId [] = [] := rfl
    rw [h0, foldl_prepend_take (first :: rest) [] (by simp)]
    rw [List.append_nil, List.reverse_cons, List.take_append_eq_append_take]
    simp [hlen]
  refine ⟨loadHistory_addHistoryItem userId item store, ?_, ?_⟩
  · rw [hload, List.length_reverse, hlen]
  · rw [hload, List.mem_reverse]
    exact hnot

/-- History item number `n` for the claim C2 witness: items are
distinguished by their timestamp. -/
def numberedItem (n : Nat) : HistoryItem :=
  ⟨"x", n, "", .text2img, "", "", none, none, none, none, none⟩

/-- Witness for claim C2: 101 concrete items added to an empty store. -/
theorem addItem_prepend_cap_witness :
    ((List.range 100).map numberedItem).length = 100 ∧
    numberedItem 100 ∉ (List.range 100).map numberedItem ∧
    (loadHistory "u" (addHistoryItem true "u" (numberedItem 0) []).2 =
      (numberedItem 0 :: loadHistory "u" []).take 100 ∧
     (loadHistory "u" (addItemsSequentially "u"
       (numberedItem 100 :: (List.range 100).map numberedItem) [])).length = 100 ∧
     numberedItem 100 ∉ loadHistory "u" (addItemsSequentially "u"
       (numberedItem 100 :: (List.range 100).map numberedItem) [])) :=
  ⟨by simp, by decide,
    addItem_prepend_cap "u" (numberedItem 0) [] (numberedItem 100)
      ((List.range 100).map numberedItem) (by simp) (by decide)⟩

/-! ### Deleting history items (src/lib/r2.ts:225, 303) -/

/-- Record of one `deleteHistoryItem` run: the boolean result, the keys
passed to `deleteImage` for the output image and its thumbnail, the
reference-image key passed to `deleteImage` (if that delete was
attempted), the history written back (if a save was attempted) and the
booleans the `deleteImage` calls returned — `deleteImage`
(src/lib/r2.ts:225) catches every error and returns `false`, so blob
deletion never raises. -/
structure DeleteEffects where
  result : Bool
  outputDeleteKeys : List String
  inputDeleteKey : Option String
  savedHistory : Option (List HistoryItem)
  deleteResults : List Bool
deriving DecidableEq

/-- The body of `deleteHistoryItem` (src/lib/r2.ts:303) applied to the
loaded history: find the item by id; if present, delete its output image
and thumbnail, delete its legacy `inputImageKey` blob only when no other
item with a different id references that exact key, filter the item out
and save.  `delOk k` is the boolean `deleteImage k` returns; the source
discards these return values. -/
def deleteHistoryItemCore (delOk : String → Bool) (saveOk : Bool)
    (history : List HistoryItem) (id : String) : DeleteEffects :=
  match history.find? (fun h => h.id == id) with
  | none => ⟨false, [], none, none, []⟩
  | some item =>
      let outKeys := [item.imageKey, getThumbnailKeyFromImageKey item.imageKey]
      let inputDel : Option String :=
        match item.inputImageKey with
        | some k =>
            if k ≠ "" then
              if history.any (fun h => h.id != id && h.inputImageKey == some k) then none
              else some k
            else none
        | none => none
      ⟨saveOk, outKeys, inputDel, some (history.filter (fun h => h.id != id)),
        (outKeys ++ inputDel.toList).map delOk⟩

/-- `deleteHistoryItem` (src/lib/r2.ts:303) with its surrounding load
and save: returns the call's boolean result, the store after the call
and the effect record. -/
def deleteHistoryItem (delOk : String → Bool) (saveOk : Bool) (userId id : String)
    (store : HistoryStore) : Bool × HistoryStore × DeleteEffects :=
  let history := loadHistory userId store
  let eff := deleteHistoryItemCore delOk saveOk history id
  match eff.savedHistory with
  | none => (false, store, eff)
  | some nh =>
      let s := saveHistory saveOk userId nh store
      (s.1, s.2, eff)

/-- Claim C1: when the item found for the given id has a non-empty
`inputImageKey`, the reference-image blob delete is attempted if and
only if no other item of the history (an item with a different id)
references that exact key. -/
theorem deleteItem_refcount (delOk : String → Bool) (saveOk : Bool)
    (history : List HistoryItem) (id : String) (item : HistoryItem) (k : String)
    (hfind : history.find? (fun h => h.id == id) = some item)
    (hkey : item.inputImageKey = some k) (hne : k ≠ "") :
    (deleteHistoryItemCore delOk saveOk history id).inputDeleteKey = some k ↔
      ¬ ∃ h ∈ history, h.id ≠ id ∧ h.inputImageKey = some k := by
  have hiff : (history.any (fun h => h.id != id && h.inputImageKey == some k) = true) ↔
      ∃ h ∈ history, h.id ≠ id ∧ h.inputImageKey = some k := by
    rw [List.any_eq_true]
    constructor
    · rintro ⟨x, hx, hb⟩
      simp only [Bool.and_eq_true, bne_iff_ne, ne_eq, beq_iff_eq] at hb
      exact ⟨x, hx, hb.1, hb.2⟩
    · rintro ⟨x, hx, h1, h2⟩
      refine ⟨x, hx, ?_⟩
      simp only [Bool.and_eq_true, bne_iff_ne, ne_eq, beq_iff_eq]
      exact ⟨h1, h2⟩
  unfold deleteHistoryItemCore
  simp only [hfind, hkey]
  rw [if_pos hne]
  by_cases hany : history.any (fun h => h.id != id && h.inputImageKey == some k) = true
  · simp only [hany, if_true]
    exact ⟨fun h => Option.noConfusion h, fun hn => absurd (hiff.mp hany) hn⟩
  · have hfalse : history.any (fun h => h.id != id && h.inputImageKey == some k) = false := by
      simpa using hany
    simp only [hfalse, Bool.false_eq_true, if_false]
    exact ⟨fun _ hex => hany (hiff.mpr hex), fun _ => trivial⟩

/-- Two-item history for the claim C1 witness: both items reference the
same input image key. -/
def itemA : HistoryItem :=
  ⟨"a", 1, "p1", .img2img, "m", "images/u/a.jpg", none, some "inputs/u/h.jpg", some "h",
    none, none⟩

def itemB : HistoryItem :=
  ⟨"b", 2, "p2", .img2img, "m", "images/u/b.jpg", none, some "inputs/u/h.jpg", some "h",
    none, none⟩

/-- Witness for claim C1 at a concrete two-item history sharing one
reference key. -/
theorem deleteItem_refcount_witness :
    [itemA, itemB].find? (fun h => h.id == "a") = some itemA ∧
    itemA.inputImageKey = some "inputs/u/h.jpg" ∧
    ("inputs/u/h.jpg" : String) ≠ "" ∧
    ((deleteHistoryItemCore (fun _ => true) true [itemA, itemB] "a").inputDeleteKey =
        some "inputs/u/h.jpg" ↔
      ¬ ∃ h ∈ [itemA, itemB], h.id ≠ "a" ∧ h.inputImageKey = some "inputs/u/h.jpg") :=
  ⟨by decide, by decide, by decide,
    deleteItem_refcount (fun _ => true) true [itemA, itemB] "a" itemA "inputs/u/h.jpg"
      (by decide) (by decide) (by decide)⟩

/-- Claim C4: when no loaded item has the given id, `deleteHistoryItem`
returns `false`, attempts no blob delete and no save, and leaves the
stored ledger unchanged. -/
theorem deleteItem_missing_id (delOk : String → Bool) (saveOk : Bool) (userId id : String)
    (store : HistoryStore)
    (habs : ∀ h ∈ loadHistory userId store, h.id ≠ id) :
    deleteHistoryItem delOk saveOk userId id store =
      (false, store, ⟨false, [], none, none, []⟩) := by
  have hf : (loadHistory userId store).find? (fun h => h.id == id) = none := by
    rw [List.find?_eq_none]
    intro x hx
    simpa using habs x hx
  unfold deleteHistoryItem deleteHistoryItemCore
  simp [hf]

/-- Witness for claim C4: deleting an id absent from a concrete one-item
ledger. -/
theorem deleteItem_missing_id_witness :
    (∀ h ∈ loadHistory "u" (saveHistory true "u" [sampleItem] []).2, h.id ≠ "zzz") ∧
    deleteHistoryItem (fun _ => true) true "u" "zzz" (saveHistory true "u" [sampleItem] []).2 =
      (false, (saveHistory true "u" [sampleItem] []).2, ⟨false, [], none, none, []⟩) :=
  ⟨by decide,
    deleteItem_missing_id (fun _ => true) true "u" "zzz"
      (saveHistory true "u" [sampleItem] []).2 (by decide)⟩

/-- Claim C5: when the item is found, the item is removed and the
remainder persisted whatever the blob deletes return: the outcome and
the stored state do not depend on the `deleteImage` results, the written
history is exactly the filtered sequence, and the overall result is the
result of the final save.  (`deleteImage` never raises: it catches every
error and returns a boolean.) -/
theorem deleteItem_best_effort (delOk1 delOk2 : String → Bool) (saveOk : Bool)
    (userId id : String) (store : HistoryStore) (item : HistoryItem)
    (hfind : (loadHistory userId store).find? (fun h => h.id == id) = some item) :
    (deleteHistoryItem delOk1 saveOk userId id store).2.2.savedHistory =
      some ((loadHistory userId store).filter (fun h => h.id != id)) ∧
    (deleteHistoryItem delOk1 saveOk userId id store).2.1 =
      (saveHistory saveOk userId
        ((loadHistory userId store).filter (fun h => h.id != id)) store).2 ∧
    (deleteHistoryItem delOk1 saveOk userId id store).1 = saveOk ∧
    (deleteHistoryItem delOk1 saveOk userId id store).1 =
      (deleteHistoryItem delOk2 saveOk userId id store).1 ∧
    (deleteHistoryItem delOk1 saveOk userId id store).2.1 =
      (deleteHistoryItem delOk2 saveOk userId id store).2.1 ∧
    (deleteHistoryItem delOk1 saveOk userId id store).2.2.savedHistory =
      (deleteHistoryItem delOk2 saveOk userId id store).2.2.savedHistory := by
  unfold deleteHistoryItem deleteHistoryItemCore
  simp only [hfind]
  cases saveOk <;> simp [saveHistory]

/-- Witness for claim C5: a concrete delete with all-failing blob
deletes on one side and all-succeeding ones on the other. -/
theorem deleteItem_best_effort_witness :
    (loadHistory "u" (saveHistory true "u" [itemA, itemB] []).2).find?
      (fun h => h.id == "a") = some itemA ∧
    ((deleteHistoryItem (fun _ => false) true "u" "a"
        (saveHistory true "u" [itemA, itemB] []).2).2.2.savedHistory =
      some ((loadHistory "u" (saveHistory true "u" [itemA, itemB] []).2).filter
        (fun h => h.id != "a")) ∧
     (deleteHistoryItem (fun _ => false) true "u" "a"
        (saveHistory true "u" [itemA, itemB] []).2).2.1 =
      (saveHistory true "u"
        ((loadHistory "u" (saveHistory true "u" [itemA, itemB] []).2).filter
          (fun h => h.id != "a"))
        (saveHistory true "u" [itemA, itemB] []).2).2 ∧
     (deleteHistoryItem (fun _ => false) true "u" "a"
        (saveHistory true "u" [itemA, itemB] []).2).1 = true ∧
     (deleteHistoryItem (fun _ => false) true "u" "a"
        (saveHistory true "u" [itemA, itemB] []).2).1 =
      (deleteHistoryItem (fun _ => true) true "u" "a"
        (saveHistory true "u" [itemA, itemB] []).2).1 ∧
     (deleteHistoryItem (fun _ => false) true "u" "a"
        (saveHistory true "u" [itemA, itemB] []).2).2.1 =
      (deleteHistoryItem (fun _ => true) true "u" "a"
        (saveHistory true "u" [itemA, itemB] []).2).2.1 ∧
     (deleteHistoryItem (fun _ => false) true "u" "a"
        (saveHistory true "u" [itemA, itemB] []).2).2.2.savedHistory =
      (deleteHistoryItem (fun _ => true) true "u" "a"
        (saveHistory true "u" [itemA, itemB] []).2).2.2.savedHistory) :=
  ⟨by decide,
    deleteItem_best_effort (fun _ => false) (fun _ => true) true "u" "a"
      (saveHistory true "u" [itemA, itemB] []).2 itemA (by decide)⟩

/-- Claim C10: for a key that does not end in `.jpg` (case-insensitive),
the thumbnail-key derivation returns the key unchanged, so
`deleteHistoryItem` on an item with such an `imageKey` passes the very
same key to `deleteImage` twice and never targets a distinct thumbnail
key; the `_thumb`-before-the-extension rule holds exactly when the key
ends in `.jpg`. -/
theorem thumbnailKey_non_jpg (key : String) (hk : endsInDotJpgCI key.data = false) :
    getThumbnailKeyFromImageKey key = key ∧
    (∀ (delOk : String → Bool) (saveOk : Bool) (history : List HistoryItem) (id : String)
      (item : HistoryItem), history.find? (fun h => h.id == id) = some item →
      item.imageKey = key →
      (deleteHistoryItemCore delOk saveOk history id).outputDeleteKeys = [key, key]) ∧
    (∀ key2 : String, endsInDotJpgCI key2.data = true →
      getThumbnailKeyFromImageKey key2 =
        String.mk (key2.data.take (key2.data.length - 4) ++ "_thumb.jpg".data)) := by
  have ht : getThumbnailKeyFromImageKey key = key := by
    unfold getThumbnailKeyFromImageKey
    simp [hk]
  refine ⟨ht, fun delOk saveOk history id item hfind hik => ?_, fun key2 hk2 => ?_⟩
  · unfold deleteHistoryItemCore
    rw [hfind]
    simp [hik, ht]
  · unfold getThumbnailKeyFromImageKey
    simp [hk2]

/-- Witness for claim C10: the non-`.jpg` key `"images/u/c.png"` inside
a concrete one-item delete. -/
theorem thumbnailKey_non_jpg_witness :
    endsInDotJpgCI ("images/u/c.png" : String).data = false ∧
    (getThumbnailKeyFromImageKey "images/u/c.png" = "images/u/c.png" ∧
     (∀ (delOk : String → Bool) (saveOk : Bool) (history : List HistoryItem) (id : String)
       (item : HistoryItem), history.find? (fun h => h.id == id) = some item →
       item.imageKey = "images/u/c.png" →
       (deleteHistoryItemCore delOk saveOk history id).outputDeleteKeys =
         ["images/u/c.png", "images/u/c.png"]) ∧
     (∀ key2 : String, endsInDotJpgCI key2.data = true →
       getThumbnailKeyFromImageKey key2 =
         String.mk (key2.data.take (key2.data.length - 4) ++ "_thumb.jpg".data))) :=
  ⟨by decide, thumbnailKey_non_jpg "images/u/c.png" (by decide)⟩

/-! ### The image proxy route (src/app/api/history/image/route.ts) -/

/-- Image blobs, keyed by storage path. -/
abbrev BlobStore := List (String × List Nat)

/-- `getImage` (src/lib/r2.ts:204): fetch a blob; a missing key and
every fetch error yield `null` (`none`). -/
def getImage (store : BlobStore) (key : String) : Option (List Nat) :=
  lookupKey store key

/-- JavaScript `key.split('.')`: always at least one segment; a leading,
trailing or doubled dot produces an empty segment. -/
def splitOnDot : List Char → List (List Char)
  | [] => [[]]
  | c :: rest =>
      let r := splitOnDot rest
      if c = '.' then [] :: r
      else match r with
        | [] => [[c]]
        | s :: ss => (c :: s) :: ss

/-- The lowercased segment after the last dot
(`key.split('.').pop()?.toLowerCase()`). -/
def lastExtLower (key : String) : String :=
  String.mk (((splitOnDot key.data).getLastD []).map Char.toLower)

/-- `getContentTypeFromKey` (route.ts:4). -/
def getContentTypeFromKey (key : String) : String :=
  let ext := lastExtLower key
  if ext = "jpg" ∨ ext = "jpeg" then "image/jpeg"
  else if ext = "webp" then "image/webp"
  else if ext = "gif" then "image/gif"
  else "image/png"

/-- Response bodies the route can produce: a `{success: ...}` JSON error
body, or raw blob bytes. -/
inductive RouteBody where
  | jsonBody : Bool → RouteBody
  | bytes : List Nat → RouteBody
deriving DecidableEq

structure RouteResponse where
  status : Nat
  body : RouteBody
  contentType : Option String
  cacheControl : Option String
deriving DecidableEq

/-- `GET` (route.ts:31): 500 when storage is not configured, 400 when
the `key` query parameter is `null` or empty (`if (!key)`), 404 with a
`{success: false}` body when the blob cannot be retrieved, otherwise 200
with the raw bytes, the content type inferred from the key and the
long-lived cache header. -/
def imageGET (configured : Bool) (keyParam : Option String) (store : BlobStore) :
    RouteResponse :=
  if !configured then ⟨500, .jsonBody false, none, none⟩
  else
    match keyParam with
    | none => ⟨400, .jsonBody false, none, none⟩
    | some k =>
        if k = "" then ⟨400, .jsonBody false, none, none⟩
        else
          match getImage store k with
          | none => ⟨404, .jsonBody false, none, none⟩
          | some b => ⟨200, .bytes b, some (getContentTypeFromKey k),
              some "public, max-age=31536000, immutable"⟩

/-- Claim C9: the route returns 500 when storage is unconfigured, 400
when the key parameter is missing, 404 with `{success: false}` when the
blob cannot be retrieved, and otherwise the raw bytes under the content
type given by the extension table `jpg/jpeg → image/jpeg`,
`webp → image/webp`, `gif → image/gif`, anything else → `image/png`. -/
theorem imageGET_spec (configured : Bool) (keyParam : Option String) (store : BlobStore)
    (k : String) (b : List Nat) :
    (configured = false → (imageGET configured keyParam store).status = 500) ∧
    (configured = true → keyParam = none → (imageGET configured keyParam store).status = 400) ∧
    (configured = true → keyParam = some k → k ≠ "" → getImage store k = none →
      (imageGET configured keyParam store).status = 404 ∧
      (imageGET configured keyParam store).body = .jsonBody false) ∧
    (configured = true → keyParam = some k → k ≠ "" → getImage store k = some b →
      (imageGET configured keyParam store).status = 200 ∧
      (imageGET configured keyParam store).body = .bytes b ∧
      (imageGET configured keyParam store).contentType = some (getContentTypeFromKey k)) ∧
    ((lastExtLower k = "jpg" ∨ lastExtLower k = "jpeg") →
      getContentTypeFromKey k = "image/jpeg") ∧
    (lastExtLower k = "webp" → getContentTypeFromKey k = "image/webp") ∧
    (lastExtLower k = "gif" → getContentTypeFromKey k = "image/gif") ∧
    (lastExtLower k ≠ "jpg" → lastExtLower k ≠ "jpeg" → lastExtLower k ≠ "webp" →
      lastExtLower k ≠ "gif" → getContentTypeFromKey k = "image/png") := by
  refine ⟨?_, ?_, ?_, ?_, ?_, ?_, ?_, ?_⟩
  · intro hc
    subst hc
    rfl
  · intro hc hk
    subst hc
    subst hk
    rfl
  · intro hc hk hne hget
    subst hc
    subst hk
    simp [imageGET, hne, hget]
  · intro hc hk hne hget
    subst hc
    subst hk
    simp [imageGET, hne, hget]
  · intro h
    unfold getContentTypeFromKey
    rw [if_pos h]
  · intro h
    simp [getContentTypeFromKey, h]
  · intro h
    simp [getContentTypeFromKey, h]
  · intro h1 h2 h3 h4
    simp [getContentTypeFromKey, h1, h2, h3, h4]

/-- Witness for claim C9: the four route outcomes and three table rows
at concrete inputs, each read off `imageGET_spec`. -/
theorem imageGET_spec_witness :
    ((false : Bool) = false → (imageGET false none []).status = 500) ∧
    ((imageGET false none []).status = 500) ∧
    ((imageGET true none []).status = 400) ∧
    ((imageGET true (some "images/u1/abc.jpg") []).status = 404 ∧
      (imageGET true (some "images/u1/abc.jpg") []).body = .jsonBody false) ∧
    ((imageGET true (some "x.GIF") [("x.GIF", [7, 7])]).status = 200 ∧
      (imageGET true (some "x.GIF") [("x.GIF", [7, 7])]).body = .bytes [7, 7] ∧
      (imageGET true (some "x.GIF") [("x.GIF", [7, 7])]).contentType =
        some (getContentTypeFromKey "x.GIF")) ∧
    getContentTypeFromKey "x.GIF" = "image/gif" ∧
    getContentTypeFromKey "a.JpEg" = "image/jpeg" ∧
    getContentTypeFromKey "noext" = "image/png" :=
  ⟨fun _ => (imageGET_spec false none [] "" []).1 rfl,
    (imageGET_spec false none [] "" []).1 rfl,
    (imageGET_spec true none [] "" []).2.1 rfl rfl,
    (imageGET_spec true (some "images/u1/abc.jpg") [] "images/u1/abc.jpg" []).2.2.1 rfl rfl
      (by decide) rfl,
    (imageGET_spec true (some "x.GIF") [("x.GIF", [7, 7])] "x.GIF" [7, 7]).2.2.2.1 rfl rfl
      (by decide) rfl,
    (imageGET_spec true none [] "x.GIF" []).2.2.2.2.2.2.1 (by decide),
    (imageGET_spec true none [] "a.JpEg" []).2.2.2.2.1 (by decide),
    (imageGET_spec true none [] "noext" []).2.2.2.2.2.2.2 (by decide) (by decide) (by decide)
      (by decide)⟩

end ImageStore
